import Mathlib

/-!
Shallow embedding of `src/api_server.py` (AI Reasoning & Evaluation API).

Python floats are modelled as exact rationals (`ℚ`); Python exceptions as
`Except`; the ambient non-determinism of the handler (uuid, wall clock) as an
explicit `Env` record; the random draws consumed by the mock scorer
`evaluate_answer_with_ai` as an explicit `Draws` record.  Python `dict`s
(insertion-ordered) are modelled as association lists.
-/

namespace ApiServer

/-- `class AnswerInput(BaseModel)` (api_server.py lines 34-36). -/
structure AnswerInput where
  content : String
  id : Option String
deriving DecidableEq

instance : Inhabited AnswerInput := ⟨⟨"", none⟩⟩

/-- `class ArchetypeScore(BaseModel)` (lines 44-47). -/
structure ArchetypeScore where
  archetype : String
  score : ℚ
  explanation : String
deriving DecidableEq

/-- `class EvaluationResult(BaseModel)` (lines 49-58). -/
structure EvaluationResult where
  answer_id : String
  content : String
  overall_score : ℚ
  ranking_position : Nat
  confidence : ℚ
  archetype_scores : List ArchetypeScore
  strengths : List String
  weaknesses : List String
  improvement_suggestions : List String
deriving DecidableEq

instance : Inhabited EvaluationResult := ⟨⟨"", "", 0, 0, 0, [], [], [], []⟩⟩

/-- `class ComparisonRequest(BaseModel)` (lines 38-42); `evaluation_type`
carries its pydantic default already applied. -/
structure ComparisonRequest where
  problem : String
  answers : List AnswerInput
  evaluation_type : String := "comprehensive"
  context : Option String := none
deriving DecidableEq

/-- `class ComparisonResponse(BaseModel)` (lines 60-69).  `timestamp` is a
rational clock reading; the two summary dicts are association lists. -/
structure ComparisonResponse where
  request_id : String
  problem : String
  evaluation_type : String
  timestamp : ℚ
  processing_time : ℚ
  results : List EvaluationResult
  best_answer : String
  confidence_summary : List (String × ℚ)
  archetype_summary : List (String × ℚ)
deriving DecidableEq

/-- Failure channel of a handler call: pydantic request validation failures
(FastAPI rejects the request before the handler runs, and
`ComparisonRequest(...)` raises the same validation error when constructed
in code) versus `HTTPException(status_code=500, ...)` raised by a handler. -/
inductive ApiError where
  | invalidRequest (msg : String)
  | serverError (msg : String)
deriving DecidableEq

/-- Ambient effects of one handler call: `str(uuid.uuid4())`, the two
`time.time()` readings (lines 192 and 245) and `datetime.now()`. -/
structure Env where
  request_id : String
  t0 : ℚ
  t1 : ℚ
  now : ℚ
deriving DecidableEq

/-- The plain-`Dict` value returned by `evaluate_answer_with_ai`
(lines 136-142). -/
structure EvalOut where
  overall_score : ℚ
  archetype_scores : List ArchetypeScore
  strengths : List String
  weaknesses : List String
  improvement_suggestions : List String
deriving DecidableEq

/-- The random draws one call of `evaluate_answer_with_ai` consumes:
`base = random.uniform(0.6, 0.9)`, the five per-archetype
`random.uniform(-w, w)` deltas, and the two indices picked by
`random.sample(suggestions, 2)`. -/
structure Draws where
  base : ℚ
  d1 : ℚ
  d2 : ℚ
  d3 : ℚ
  d4 : ℚ
  d5 : ℚ
  s1 : Nat
  s2 : Nat
deriving DecidableEq

/-- The fixed pool `suggestions` (lines 129-134). -/
def suggestionPool : List String :=
  ["Add more specific examples",
   "Include counterarguments or alternative views",
   "Strengthen logical connections",
   "Provide more context or background"]

/-- Model of `random.sample(suggestions, 2)`: pick one element, then one of
the remaining three, driven by the two sampled indices. -/
def sampleTwo (i j : Nat) : List String :=
  let fi := i % suggestionPool.length
  let first := suggestionPool.getD fi ""
  let rest := suggestionPool.eraseIdx fi
  [first, rest.getD (j % rest.length) ""]

/-- Python `needle in hay` substring test. -/
def strContains (hay needle : String) : Bool :=
  (hay.splitOn needle).length > 1

/-- Python `f"{x:.2f}"` rendering of a (non-negative) score. -/
def fmt2 (q : ℚ) : String :=
  let n : Int := ⌊q * 100 + 1 / 2⌋
  let ip := n / 100
  let fp := (n % 100).toNat
  toString ip ++ "." ++ (if fp < 10 then "0" else "") ++ toString fp

/-- `evaluate_answer_with_ai` (lines 79-142).  `problem` and `context` are
accepted and ignored exactly as in the source; all randomness comes from
`d`. -/
def evaluate_answer_with_ai (problem answer : String) (context : Option String)
    (d : Draws) : EvalOut :=
  let base0 := d.base
  let base1 := if answer.length > 100 then base0 + 5 / 100 else base0
  let base_score :=
    if strContains answer "?" || strContains answer "because" then base1 + 3 / 100
    else base1
  let archetype_scores : List ArchetypeScore :=
    [⟨"clarity", min (base_score + d.d1) 1, "Clear and well-structured explanation"⟩,
     ⟨"accuracy", min (base_score + d.d2) 1, "Factually sound with good reasoning"⟩,
     ⟨"completeness", min (base_score + d.d3) 1, "Covers key aspects of the problem"⟩,
     ⟨"adaptability", min (base_score + d.d4) 1, "Applies well to different contexts"⟩,
     ⟨"structure", min (base_score + d.d5) 1, "Well-organized and logical flow"⟩]
  let overall_score := (archetype_scores.map (fun s => s.score)).sum /
    (archetype_scores.length : ℚ)
  let strengths := (archetype_scores.filter (fun s => 7 / 10 < s.score)).map
    (fun s => "Strong " ++ s.archetype ++ " (" ++ fmt2 s.score ++ ")")
  let weaknesses := (archetype_scores.filter (fun s => s.score < 6 / 10)).map
    (fun s => "Could improve " ++ s.archetype ++ " (" ++ fmt2 s.score ++ ")")
  { overall_score := overall_score
    archetype_scores := archetype_scores
    strengths := strengths
    weaknesses := weaknesses
    improvement_suggestions := sampleTwo d.s1 d.s2 }

/-- Python `answer.id or f"answer_{i}"` (line 207): `or` replaces both
`None` and the falsy empty string. -/
def pyOrId (i? : Option String) (i : Nat) : String :=
  match i? with
  | none => "answer_" ++ toString i
  | some s => if s = "" then "answer_" ++ toString i else s

/-- Construction of one `EvaluationResult` (lines 206-216). -/
def mkEvalResult (i : Nat) (a : AnswerInput) (out : EvalOut) : EvaluationResult :=
  { answer_id := pyOrId a.id i
    content := a.content
    overall_score := out.overall_score
    ranking_position := 0
    confidence := 728 / 1000
    archetype_scores := out.archetype_scores
    strengths := out.strengths
    weaknesses := out.weaknesses
    improvement_suggestions := out.improvement_suggestions }

/-- The per-candidate evaluation loop (lines 196-218).  The scorer call is
abstracted as `f`, indexed by the loop position to account for the fresh
random state each call of `evaluate_answer_with_ai` consumes; a raised
exception is an `Except.error` carrying `str(e)`. -/
def evalLoop (f : Nat → AnswerInput → Except String EvalOut) :
    Nat → List AnswerInput → Except String (List EvaluationResult)
  | _, [] => .ok []
  | i, a :: rest =>
    match f i a with
    | .error e => .error e
    | .ok out =>
      match evalLoop f (i + 1) rest with
      | .error e => .error e
      | .ok rs => .ok (mkEvalResult i a out :: rs)

/-- Insertion step of the stable descending sort:
the new element goes in front of the first already-placed element whose key
is not larger. -/
def insertDesc {α : Type} (key : α → ℚ) (x : α) : List α → List α
  | [] => [x]
  | y :: ys => if key y ≤ key x then x :: y :: ys else y :: insertDesc key x ys

/-- `evaluation_results.sort(key=lambda x: x.overall_score, reverse=True)`
(line 221): CPython's sort is stable and `reverse=True` preserves the input
order of equal keys; this insertion sort computes exactly that list. -/
def sortByScoreDesc {α : Type} (key : α → ℚ) : List α → List α
  | [] => []
  | x :: xs => insertDesc key x (sortByScoreDesc key xs)

/-- `for i, result in enumerate(evaluation_results): result.ranking_position = i + 1`
(lines 222-223). -/
def assignRanks : Nat → List EvaluationResult → List EvaluationResult
  | _, [] => []
  | i, r :: rs => { r with ranking_position := i + 1 } :: assignRanks (i + 1) rs

/-- Sorted-and-ranked result list (lines 220-223). -/
def rankedResults (raw : List EvaluationResult) : List EvaluationResult :=
  assignRanks 0 (sortByScoreDesc (fun r => r.overall_score) raw)

/-- Python `d[k]` lookup on an insertion-ordered dict modelled as an
association list. -/
def dictGet? {α : Type} (d : List (String × α)) (k : String) : Option α :=
  (d.find? (fun p => p.1 == k)).map (fun p => p.2)

/-- Python `d[k] = v`: overwrite in place when the key exists, append
otherwise. -/
def dictSet {α : Type} (d : List (String × α)) (k : String) (v : α) :
    List (String × α) :=
  if d.any (fun p => p.1 == k) then
    d.map (fun p => if p.1 == k then (k, v) else p)
  else d ++ [(k, v)]

/-- One inner step of the archetype-summary loop (lines 236-239):
`if score.archetype not in archetype_summary: archetype_summary[...] = []`
followed by `archetype_summary[score.archetype].append(score.score)`. -/
def addScore (d : List (String × List ℚ)) (s : ArchetypeScore) :
    List (String × List ℚ) :=
  match dictGet? d s.archetype with
  | none => dictSet d s.archetype [s.score]
  | some l => dictSet d s.archetype (l ++ [s.score])

/-- The nested collection loop of lines 234-239. -/
def buildArchetypeLists (results : List EvaluationResult) :
    List (String × List ℚ) :=
  results.foldl (fun d r => r.archetype_scores.foldl addScore d) []

/-- Lines 241-243: replace each collected score list by its mean, key by
key, in place.  Every stored list is non-empty by construction of
`addScore`, so total `ℚ` division agrees with Python here. -/
def summarize (results : List EvaluationResult) : List (String × ℚ) :=
  (buildArchetypeLists results).map (fun p => (p.1, p.2.sum / (p.2.length : ℚ)))

/-- Lines 226-257: best answer, summaries and response assembly.  The
`sum(...) / len(...)` for `average_confidence` raises `ZeroDivisionError`
on an empty result list; that exception is what the `except` clause at
lines 259-260 turns into the 500 response.  `best_answer=None` would be a
pydantic validation failure of `ComparisonResponse`, also caught there;
the branch is unreachable because the zero-length check fires first. -/
def assembleResponse (env : Env) (req : ComparisonRequest)
    (ranked : List EvaluationResult) : Except ApiError ComparisonResponse :=
  let best : Option String := ranked.head?.map (fun r => r.answer_id)
  if ranked.length = 0 then
    .error (.serverError "Evaluation failed: division by zero")
  else
    match best with
    | none => .error (.serverError "Evaluation failed: best_answer missing")
    | some b =>
      .ok { request_id := env.request_id
            problem := req.problem
            evaluation_type := req.evaluation_type
            timestamp := env.now
            processing_time := env.t1 - env.t0
            results := ranked
            best_answer := b
            confidence_summary :=
              [("average_confidence",
                 (ranked.map (fun r => r.confidence)).sum / (ranked.length : ℚ)),
               ("ranking_confidence", 728 / 1000),
               ("evaluation_reliability", 724 / 1000)]
            archetype_summary := summarize ranked }

/-- `compare_answers` (lines 187-260), the `/compare` handler body.  Any
exception from the loop is re-raised as
`HTTPException(500, f"Evaluation failed: {str(e)}")`. -/
def compare_answers (env : Env) (req : ComparisonRequest)
    (f : Nat → AnswerInput → Except String EvalOut) :
    Except ApiError ComparisonResponse :=
  match evalLoop f 0 req.answers with
  | .error e => .error (.serverError ("Evaluation failed: " ++ e))
  | .ok raw => assembleResponse env req (rankedResults raw)

/-- Pydantic validation performed when a `ComparisonRequest` is built
(lines 38-42): the only content constraints on the model are
`min_items=2` and `max_items=10` on `answers`; `problem` and each
`content` are unconstrained strings. -/
def mkComparisonRequest (problem : String) (answers : List AnswerInput)
    (evaluation_type : String) (context : Option String) :
    Except String ComparisonRequest :=
  if answers.length < 2 then .error "ensure answers has at least 2 items"
  else if 10 < answers.length then .error "ensure answers has at most 10 items"
  else .ok { problem := problem, answers := answers,
             evaluation_type := evaluation_type, context := context }

/-- The `/compare` endpoint as seen by a caller: FastAPI/pydantic request
validation, then the handler. -/
def compare_endpoint (env : Env) (problem : String) (answers : List AnswerInput)
    (evaluation_type : String) (context : Option String)
    (f : Nat → AnswerInput → Except String EvalOut) :
    Except ApiError ComparisonResponse :=
  match mkComparisonRequest problem answers evaluation_type context with
  | .error e => .error (.invalidRequest e)
  | .ok req => compare_answers env req f

/-- The scorer the shipped code plugs into the loop: line 200 calls
`evaluate_answer_with_ai(request.problem, answer.content, request.context)`
with a fresh random state per call. -/
def mockScorer (problem : String) (context : Option String)
    (draws : Nat → Draws) : Nat → AnswerInput → Except String EvalOut :=
  fun i a => .ok (evaluate_answer_with_ai problem a.content context (draws i))

/-- `/compare` with the shipped mock scorer. -/
def compare_endpoint_mock (env : Env) (draws : Nat → Draws) (problem : String)
    (answers : List AnswerInput) (evaluation_type : String)
    (context : Option String) : Except ApiError ComparisonResponse :=
  compare_endpoint env problem answers evaluation_type context
    (mockScorer problem context draws)

/-- Return value of the `/evaluate` handler (lines 287-294). -/
structure SingleEvalResponse where
  request_id : String
  problem : String
  answer : String
  evaluation : EvaluationResult
  timestamp : ℚ
  processing_time : ℚ
deriving DecidableEq

/-- Message text of a re-raised handler failure. -/
def errText : ApiError → String
  | .invalidRequest m => m
  | .serverError m => m

/-- `evaluate_single_answer` (lines 263-299), the `/evaluate` handler:
builds a one-element `ComparisonRequest` (validated on construction),
delegates to `compare_answers`, and wraps any exception — including the
validation error raised by the construction itself — as
`HTTPException(500, f"Evaluation failed: {str(e)}")`. -/
def evaluate_single_answer (env : Env) (problem answer : String)
    (context : Option String)
    (f : Nat → AnswerInput → Except String EvalOut) :
    Except ApiError SingleEvalResponse :=
  match mkComparisonRequest problem [{ content := answer, id := some "single_answer" }]
      "quick" context with
  | .error e => .error (.serverError ("Evaluation failed: " ++ e))
  | .ok req =>
    match compare_answers env req f with
    | .error err => .error (.serverError ("Evaluation failed: " ++ errText err))
    | .ok resp =>
      match resp.results with
      | [] => .error (.serverError "Evaluation failed")
      | r :: _ =>
        .ok { request_id := env.request_id, problem := problem, answer := answer,
              evaluation := r, timestamp := resp.timestamp,
              processing_time := resp.processing_time }

/-! ## Concrete fixtures for witness and counterexample theorems -/

/-- A fixed environment (request id and clock readings). -/
def wEnv : Env := ⟨"req-1", 0, 1, 2⟩

/-- A fixed random-draw record for the mock scorer. -/
def wDraws : Draws := ⟨7 / 10, 0, 0, 0, 0, 0, 0, 0⟩

/-- A trivial scorer output with no archetype scores. -/
def wOut : EvalOut :=
  { overall_score := 0, archetype_scores := [], strengths := [],
    weaknesses := [], improvement_suggestions := [] }

/-- A scorer output giving the same score `q` to the five fixed archetypes. -/
def wOut5 (q : ℚ) : EvalOut :=
  { overall_score := q
    archetype_scores :=
      [⟨"clarity", q, "e"⟩, ⟨"accuracy", q, "e"⟩, ⟨"completeness", q, "e"⟩,
       ⟨"adaptability", q, "e"⟩, ⟨"structure", q, "e"⟩]
    strengths := []
    weaknesses := []
    improvement_suggestions := [] }

/-- A scorer output whose single archetype score is out of range. -/
def wBadOut : EvalOut :=
  { overall_score := 5, archetype_scores := [⟨"clarity", 5, "x"⟩],
    strengths := [], weaknesses := [], improvement_suggestions := [] }

/-- Two fixed candidates. -/
def wAnswers2 : List AnswerInput :=
  [⟨"first answer", some "a"⟩, ⟨"second answer", some "b"⟩]

/-- Eleven fixed candidates. -/
def wAnswers11 : List AnswerInput := List.replicate 11 ⟨"c", none⟩

/-- A deterministic stub scorer: score 2 on every archetype for the candidate
at index 0, score 1 for the others. -/
def wScorerAB : Nat → AnswerInput → Except String EvalOut :=
  fun i _ => .ok (wOut5 (if i = 0 then 2 else 1))

/-- The raw evaluation list `wScorerAB` produces on `wAnswers2`. -/
def wRaw : List EvaluationResult :=
  [mkEvalResult 0 ⟨"first answer", some "a"⟩ (wOut5 2),
   mkEvalResult 1 ⟨"second answer", some "b"⟩ (wOut5 1)]

/-- `wRaw` after sorting and rank assignment, first element. -/
def wR0 : EvaluationResult :=
  { mkEvalResult 0 ⟨"first answer", some "a"⟩ (wOut5 2) with
    ranking_position := 1 }

/-- `wRaw` after sorting and rank assignment, second element. -/
def wR1 : EvaluationResult :=
  { mkEvalResult 1 ⟨"second answer", some "b"⟩ (wOut5 1) with
    ranking_position := 2 }

/-- A scorer output covering the five archetypes except "structure". -/
def wOut4 : EvalOut :=
  { overall_score := 1
    archetype_scores :=
      [⟨"clarity", 1, "e"⟩, ⟨"accuracy", 1, "e"⟩, ⟨"completeness", 1, "e"⟩,
       ⟨"adaptability", 1, "e"⟩]
    strengths := []
    weaknesses := []
    improvement_suggestions := [] }

/-- A stub scorer where only the candidate at index 0 possesses the
"structure" archetype. -/
def wScorerPartial : Nat → AnswerInput → Except String EvalOut :=
  fun i _ => .ok (if i = 0 then wOut5 2 else wOut4)

/-- The `wScorerAB` stub as a total (non-failing) scorer function. -/
def wG : Nat → AnswerInput → EvalOut :=
  fun i _ => wOut5 (if i = 0 then 2 else 1)

/-- The raw evaluation list `wScorerPartial` produces on `wAnswers2`. -/
def wRawPartial : List EvaluationResult :=
  [mkEvalResult 0 ⟨"first answer", some "a"⟩ (wOut5 2),
   mkEvalResult 1 ⟨"second answer", some "b"⟩ wOut4]

/-- A stub scorer that raises for the candidate with content
"second answer" (the one whose id is "b"). -/
def wScorerRaisingB : Nat → AnswerInput → Except String EvalOut :=
  fun _ a => if a.content = "second answer" then .error "scorer exploded"
             else .ok (wOut5 (1 / 2))

/-! ## Helper lemmas: evaluation loop -/

theorem evalLoop_total (g : Nat → AnswerInput → EvalOut) :
    ∀ (k : Nat) (answers : List AnswerInput),
      evalLoop (fun i a => .ok (g i a)) k answers =
        .ok ((List.enumFrom k answers).map (fun p => mkEvalResult p.1 p.2 (g p.1 p.2))) := by
  intro k answers
  induction answers generalizing k with
  | nil => rfl
  | cons a rest ih => simp [evalLoop, ih, List.enumFrom]

theorem evalLoop_length (f : Nat → AnswerInput → Except String EvalOut) :
    ∀ {k : Nat} {answers : List AnswerInput} {rs : List EvaluationResult},
      evalLoop f k answers = .ok rs → rs.length = answers.length := by
  intro k answers
  induction answers generalizing k with
  | nil =>
    intro rs h
    simp [evalLoop] at h
    simp [← h]
  | cons a rest ih =>
    intro rs h
    simp only [evalLoop] at h
    cases hf : f k a with
    | error e => rw [hf] at h; exact absurd h (by simp)
    | ok out =>
      rw [hf] at h
      cases hrec : evalLoop f (k + 1) rest with
      | error e => rw [hrec] at h; exact absurd h (by simp)
      | ok rs0 =>
        rw [hrec] at h
        simp at h
        subst h
        simp [ih hrec]

theorem evalLoop_getD (f : Nat → AnswerInput → Except String EvalOut) :
    ∀ (k : Nat) (answers : List AnswerInput) (rs : List EvaluationResult),
      evalLoop f k answers = .ok rs →
      ∀ i, i < answers.length →
        ∃ out, f (k + i) (answers.getD i default) = .ok out ∧
          rs.getD i default = mkEvalResult (k + i) (answers.getD i default) out := by
  intro k answers
  induction answers generalizing k with
  | nil => intro rs _ i hi; exact absurd hi (by simp)
  | cons a rest ih =>
    intro rs h i hi
    simp only [evalLoop] at h
    cases hf : f k a with
    | error e => rw [hf] at h; exact absurd h (by simp)
    | ok out =>
      rw [hf] at h
      cases hrec : evalLoop f (k + 1) rest with
      | error e => rw [hrec] at h; exact absurd h (by simp)
      | ok rs0 =>
        rw [hrec] at h
        simp at h
        subst h
        cases i with
        | zero => exact ⟨out, by simpa using hf, by simp⟩
        | succ j =>
          have hj : j < rest.length := by simpa using hi
          obtain ⟨out', h1, h2⟩ := ih (k + 1) rs0 hrec j hj
          refine ⟨out', ?_, ?_⟩
          · have : k + 1 + j = k + (j + 1) := by omega
            rw [← this]
            simpa using h1
          · have : k + 1 + j = k + (j + 1) := by omega
            rw [← this]
            simpa using h2

/-! ## Helper lemmas: stable descending sort -/

theorem insertDesc_perm {α : Type} (key : α → ℚ) (x : α) :
    ∀ l : List α, (insertDesc key x l).Perm (x :: l) := by
  intro l
  induction l with
  | nil => exact List.Perm.refl _
  | cons y ys ih =>
    simp only [insertDesc]
    split
    · exact List.Perm.refl _
    · exact (ih.cons y).trans (List.Perm.swap x y ys)

theorem sortByScoreDesc_perm {α : Type} (key : α → ℚ) :
    ∀ l : List α, (sortByScoreDesc key l).Perm l := by
  intro l
  induction l with
  | nil => exact List.Perm.refl _
  | cons x xs ih =>
    exact (insertDesc_perm key x (sortByScoreDesc key xs)).trans (ih.cons x)

theorem mem_insertDesc {α : Type} {key : α → ℚ} {x z : α} {l : List α} :
    z ∈ insertDesc key x l ↔ z = x ∨ z ∈ l := by
  rw [(insertDesc_perm key x l).mem_iff]
  simp

theorem insertDesc_sorted {α : Type} (key : α → ℚ) (x : α) :
    ∀ {l : List α}, l.Pairwise (fun a b => key b ≤ key a) →
      (insertDesc key x l).Pairwise (fun a b => key b ≤ key a) := by
  intro l h
  induction l with
  | nil => simp [insertDesc]
  | cons y ys ih =>
    rw [List.pairwise_cons] at h
    simp only [insertDesc]
    split
    · refine List.Pairwise.cons ?_ (List.pairwise_cons.mpr h)
      intro z hz
      rcases List.mem_cons.mp hz with hz | hz
      · subst hz; assumption
      · exact le_trans (h.1 z hz) (by assumption)
    · refine List.Pairwise.cons ?_ (ih h.2)
      intro z hz
      rcases mem_insertDesc.mp hz with hz | hz
      · subst hz; exact le_of_lt (lt_of_not_le (by assumption))
      · exact h.1 z hz

theorem sortByScoreDesc_sorted {α : Type} (key : α → ℚ) :
    ∀ l : List α, (sortByScoreDesc key l).Pairwise (fun a b => key b ≤ key a) := by
  intro l
  induction l with
  | nil => simp [sortByScoreDesc]
  | cons x xs ih => exact insertDesc_sorted key x ih

theorem insertDesc_stable {α : Type} (key : α → ℚ) (tag : α → Nat) (x : α) :
    ∀ {l : List α},
      l.Pairwise (fun a b => key b < key a ∨ (key a = key b ∧ tag a < tag b)) →
      (∀ y ∈ l, tag x < tag y) →
      (insertDesc key x l).Pairwise
        (fun a b => key b < key a ∨ (key a = key b ∧ tag a < tag b)) := by
  intro l h htag
  induction l with
  | nil => simp [insertDesc]
  | cons y ys ih =>
    rw [List.pairwise_cons] at h
    have hkey : ∀ z ∈ ys, key z ≤ key y := by
      intro z hz
      rcases h.1 z hz with h1 | h1
      · exact le_of_lt h1
      · exact le_of_eq h1.1.symm
    simp only [insertDesc]
    split
    · rename_i hyx
      refine List.Pairwise.cons ?_ (List.pairwise_cons.mpr h)
      intro z hz
      have hzx : key z ≤ key x := by
        rcases List.mem_cons.mp hz with hz | hz
        · subst hz; exact hyx
        · exact le_trans (hkey z hz) hyx
      rcases lt_or_eq_of_le hzx with h1 | h1
      · exact Or.inl h1
      · exact Or.inr ⟨h1.symm, htag z hz⟩
    · rename_i hyx
      refine List.Pairwise.cons ?_ (ih h.2 (fun z hz => htag z (List.mem_cons_of_mem y hz)))
      intro z hz
      rcases mem_insertDesc.mp hz with hz | hz
      · subst hz; exact Or.inl (lt_of_not_le hyx)
      · exact h.1 z hz

theorem sortByScoreDesc_stable {α : Type} (key : α → ℚ) (tag : α → Nat) :
    ∀ {l : List α}, l.Pairwise (fun a b => tag a < tag b) →
      (sortByScoreDesc key l).Pairwise
        (fun a b => key b < key a ∨ (key a = key b ∧ tag a < tag b)) := by
  intro l h
  induction l with
  | nil => simp [sortByScoreDesc]
  | cons x xs ih =>
    rw [List.pairwise_cons] at h
    refine insertDesc_stable key tag x (ih h.2) ?_
    intro y hy
    exact h.1 y ((sortByScoreDesc_perm key xs).mem_iff.mp hy)

theorem insertDesc_map {α β : Type} (key : β → ℚ) (f : α → β) (x : α) :
    ∀ l : List α,
      (insertDesc (fun a => key (f a)) x l).map f = insertDesc key (f x) (l.map f) := by
  intro l
  induction l with
  | nil => simp [insertDesc]
  | cons y ys ih =>
    simp only [insertDesc, List.map_cons]
    split
    · simp
    · simp [ih]

theorem sortByScoreDesc_map {α β : Type} (key : β → ℚ) (f : α → β) :
    ∀ l : List α,
      (sortByScoreDesc (fun a => key (f a)) l).map f = sortByScoreDesc key (l.map f) := by
  intro l
  induction l with
  | nil => simp [sortByScoreDesc]
  | cons x xs ih =>
    simp only [sortByScoreDesc, List.map_cons]
    rw [← ih, insertDesc_map]

/-! ## Helper lemmas: index tagging -/

theorem enumFrom_map_snd' {α : Type} :
    ∀ (k : Nat) (l : List α), (List.enumFrom k l).map Prod.snd = l := by
  intro k l
  induction l generalizing k with
  | nil => rfl
  | cons x xs ih => simp [List.enumFrom, ih]

theorem enumFrom_fst_lt {α : Type} :
    ∀ (k : Nat) (l : List α),
      (List.enumFrom k l).Pairwise (fun p q => p.1 < q.1) := by
  intro k l
  induction l generalizing k with
  | nil => simp [List.enumFrom]
  | cons x xs ih =>
    simp only [List.enumFrom]
    refine List.Pairwise.cons ?_ (ih (k + 1))
    intro q hq
    obtain ⟨h1, _, _⟩ := List.mem_enumFrom (show (q.1, q.2) ∈ List.enumFrom (k + 1) xs by simpa using hq)
    omega

/-! ## Helper lemmas: rank assignment -/

theorem assignRanks_map {β : Type} (f : EvaluationResult → β)
    (hf : ∀ (r : EvaluationResult) (n : Nat), f { r with ranking_position := n } = f r) :
    ∀ (i : Nat) (l : List EvaluationResult), (assignRanks i l).map f = l.map f := by
  intro i l
  induction l generalizing i with
  | nil => rfl
  | cons r rs ih => simp [assignRanks, hf, ih]

theorem assignRanks_ranks :
    ∀ (i : Nat) (l : List EvaluationResult),
      (assignRanks i l).map (fun r => r.ranking_position) = List.range' (i + 1) l.length := by
  intro i l
  induction l generalizing i with
  | nil => simp [assignRanks]
  | cons r rs ih => simp [assignRanks, ih, List.range'_succ]

theorem assignRanks_length :
    ∀ (i : Nat) (l : List EvaluationResult), (assignRanks i l).length = l.length := by
  intro i l
  induction l generalizing i with
  | nil => rfl
  | cons r rs ih => simp [assignRanks, ih]

theorem assignRanks_mem :
    ∀ {i : Nat} {l : List EvaluationResult} {r : EvaluationResult},
      r ∈ assignRanks i l →
      ∃ r' ∈ l, r.answer_id = r'.answer_id ∧ r.overall_score = r'.overall_score ∧
        r.archetype_scores = r'.archetype_scores := by
  intro i l
  induction l generalizing i with
  | nil => intro r h; exact absurd h (by simp [assignRanks])
  | cons r0 rs ih =>
    intro r h
    rcases List.mem_cons.mp (by simpa [assignRanks] using h) with h | h
    · exact ⟨r0, List.mem_cons_self r0 rs, by subst h; simp⟩
    · obtain ⟨r', hr', hprops⟩ := ih h
      exact ⟨r', List.mem_cons_of_mem r0 hr', hprops⟩

/-! ## Helper lemmas: response assembly -/

theorem assembleResponse_cons (env : Env) (req : ComparisonRequest)
    (r0 : EvaluationResult) (rest : List EvaluationResult) :
    assembleResponse env req (r0 :: rest) =
      .ok { request_id := env.request_id
            problem := req.problem
            evaluation_type := req.evaluation_type
            timestamp := env.now
            processing_time := env.t1 - env.t0
            results := r0 :: rest
            best_answer := r0.answer_id
            confidence_summary :=
              [("average_confidence",
                 ((r0 :: rest).map (fun r => r.confidence)).sum / ((r0 :: rest).length : ℚ)),
               ("ranking_confidence", 728 / 1000),
               ("evaluation_reliability", 724 / 1000)]
            archetype_summary := summarize (r0 :: rest) } := rfl

theorem compare_answers_eq (env : Env) (req : ComparisonRequest)
    (f : Nat → AnswerInput → Except String EvalOut)
    {raw : List EvaluationResult} (hloop : evalLoop f 0 req.answers = .ok raw) :
    compare_answers env req f = assembleResponse env req (rankedResults raw) := by
  simp [compare_answers, hloop]

/-! ## Helper lemmas: dict model -/

theorem dictGet?_cons {α : Type} (p : String × α) (ps : List (String × α))
    (k : String) :
    dictGet? (p :: ps) k = if p.1 == k then some p.2 else dictGet? ps k := by
  unfold dictGet?
  rw [List.find?_cons]
  cases p.1 == k <;> simp

theorem dictGet?_map_set {α : Type} (k : String) (v : α) :
    ∀ d : List (String × α),
      dictGet? (d.map (fun p => if p.1 == k then (k, v) else p)) k =
        if d.any (fun p => p.1 == k) then some v else none := by
  intro d
  induction d with
  | nil => simp [dictGet?]
  | cons p ps ih =>
    cases hpk : (p.1 == k) with
    | true =>
      rw [List.map_cons, if_pos hpk, dictGet?_cons]
      simp [List.any_cons, hpk]
    | false =>
      rw [List.map_cons, if_neg (by simp [hpk]), dictGet?_cons,
        if_neg (by simp [hpk]), ih, List.any_cons, hpk, Bool.false_or]

theorem dictGet?_map_set_ne {α : Type} {k k' : String} (v : α) (h : k' ≠ k) :
    ∀ d : List (String × α),
      dictGet? (d.map (fun p => if p.1 == k then (k, v) else p)) k' = dictGet? d k' := by
  intro d
  induction d with
  | nil => rfl
  | cons p ps ih =>
    cases hpk : (p.1 == k) with
    | true =>
      have hp : p.1 = k := by simpa using hpk
      have h1 : (k == k') = false := by
        simp only [beq_eq_false_iff_ne, ne_eq]
        exact fun hh => h hh.symm
      have h2 : (p.1 == k') = false := by
        rw [hp]
        exact h1
      rw [List.map_cons, if_pos hpk, dictGet?_cons, dictGet?_cons]
      simp only [h1, h2, ih]
      simp
    | false =>
      rw [List.map_cons, if_neg (by simp [hpk]), dictGet?_cons, dictGet?_cons, ih]

theorem dictGet?_dictSet_self {α : Type} (d : List (String × α)) (k : String) (v : α) :
    dictGet? (dictSet d k v) k = some v := by
  unfold dictSet
  split
  · rename_i h
    rw [dictGet?_map_set]
    simp only [h, if_true]
  · rename_i h
    have hnone : d.find? (fun p => p.1 == k) = none := by
      rw [List.find?_eq_none]
      intro x hx hx'
      exact h (List.any_eq_true.mpr ⟨x, hx, hx'⟩)
    simp [dictGet?, List.find?_append, hnone, List.find?_cons]

theorem dictGet?_dictSet_ne {α : Type} (d : List (String × α)) {k k' : String}
    (v : α) (h : k' ≠ k) : dictGet? (dictSet d k v) k' = dictGet? d k' := by
  unfold dictSet
  split
  · exact dictGet?_map_set_ne v h d
  · have hk : ¬(k = k') := fun hh => h hh.symm
    simp [dictGet?, List.find?_append, List.find?_cons, hk]

theorem dictGet?_addScore (d : List (String × List ℚ)) (s : ArchetypeScore)
    (A : String) :
    dictGet? (addScore d s) A =
      if s.archetype = A then some ((dictGet? d A).getD [] ++ [s.score])
      else dictGet? d A := by
  unfold addScore
  by_cases hA : s.archetype = A
  · subst hA
    cases hd : dictGet? d s.archetype with
    | none => simp [hd, dictGet?_dictSet_self]
    | some l => simp [hd, dictGet?_dictSet_self]
  · have hne : A ≠ s.archetype := fun hh => hA hh.symm
    cases hd : dictGet? d s.archetype with
    | none => simp [hA, dictGet?_dictSet_ne _ _ hne]
    | some l => simp [hA, dictGet?_dictSet_ne _ _ hne]

theorem dictGet?_foldl_addScore (A : String) :
    ∀ (entries : List ArchetypeScore) (d : List (String × List ℚ)),
      dictGet? (entries.foldl addScore d) A =
        match dictGet? d A with
        | some l =>
            some (l ++ ((entries.filter (fun s => s.archetype == A)).map (fun s => s.score)))
        | none =>
            if (entries.filter (fun s => s.archetype == A)) = [] then none
            else some ((entries.filter (fun s => s.archetype == A)).map (fun s => s.score)) := by
  intro entries
  induction entries with
  | nil =>
    intro d
    cases hd : dictGet? d A <;> simp [hd]
  | cons e es ih =>
    intro d
    rw [List.foldl_cons, ih (addScore d e)]
    by_cases he : e.archetype = A
    · rw [dictGet?_addScore]
      cases hd : dictGet? d A with
      | none => simp [he, hd, List.filter_cons]
      | some l => simp [he, hd, List.filter_cons, List.append_assoc]
    · rw [dictGet?_addScore]
      cases hd : dictGet? d A with
      | none => simp [he, hd, List.filter_cons]
      | some l => simp [he, hd, List.filter_cons]

theorem buildArchetypeLists_eq_flat :
    ∀ (results : List EvaluationResult) (d : List (String × List ℚ)),
      results.foldl (fun d r => r.archetype_scores.foldl addScore d) d =
        (results.flatMap (fun r => r.archetype_scores)).foldl addScore d := by
  intro results
  induction results with
  | nil => intro d; rfl
  | cons r rs ih => intro d; simp [List.flatMap_cons, List.foldl_append, ih]

theorem dictGet?_build (A : String) (results : List EvaluationResult) :
    dictGet? (buildArchetypeLists results) A =
      if ((results.flatMap (fun r => r.archetype_scores)).filter
            (fun s => s.archetype == A)) = [] then none
      else some (((results.flatMap (fun r => r.archetype_scores)).filter
            (fun s => s.archetype == A)).map (fun s => s.score)) := by
  unfold buildArchetypeLists
  rw [buildArchetypeLists_eq_flat, dictGet?_foldl_addScore]
  rfl

theorem dictGet?_map_values {α β : Type} (g : α → β) (k : String) :
    ∀ d : List (String × α),
      dictGet? (d.map (fun p => (p.1, g p.2))) k = (dictGet? d k).map g := by
  intro d
  induction d with
  | nil => rfl
  | cons p ps ih =>
    rw [List.map_cons, dictGet?_cons, dictGet?_cons]
    cases hpk : (p.1 == k) with
    | true => simp
    | false => simp [ih]

theorem dictGet?_summarize (A : String) (results : List EvaluationResult) :
    dictGet? (summarize results) A =
      (dictGet? (buildArchetypeLists results) A).map
        (fun l => l.sum / (l.length : ℚ)) := by
  unfold summarize
  exact dictGet?_map_values (fun l : List ℚ => l.sum / (l.length : ℚ)) A _

theorem filter_eq_find?_toList (A : String) :
    ∀ (l : List ArchetypeScore),
      (l.map (fun s => s.archetype)).Nodup →
      l.filter (fun s => s.archetype == A) =
        (l.find? (fun s => s.archetype == A)).toList := by
  intro l hnd
  induction l with
  | nil => rfl
  | cons s ss ih =>
    simp only [List.map_cons, List.nodup_cons] at hnd
    by_cases hs : s.archetype = A
    · have hrest : ss.filter (fun s => s.archetype == A) = [] := by
        rw [List.filter_eq_nil_iff]
        intro x hx
        simp only [beq_iff_eq]
        intro hxa
        exact hnd.1 (by
          rw [← hs] at hxa
          exact (List.mem_map.mpr ⟨x, hx, hxa⟩))
      simp [List.filter_cons, List.find?_cons, hs, hrest]
    · simp [List.filter_cons, List.find?_cons, hs, ih hnd.2]

theorem owners_eq_flat (A : String) :
    ∀ (results : List EvaluationResult),
      (∀ r ∈ results, (r.archetype_scores.map (fun s => s.archetype)).Nodup) →
      results.filterMap
          (fun r => (r.archetype_scores.find? (fun s => s.archetype == A)).map
            (fun s => s.score)) =
        ((results.flatMap (fun r => r.archetype_scores)).filter
          (fun s => s.archetype == A)).map (fun s => s.score) := by
  intro results hnd
  induction results with
  | nil => rfl
  | cons r rs ih =>
    rw [List.flatMap_cons, List.filter_append, List.map_append, List.filterMap_cons]
    rw [filter_eq_find?_toList A r.archetype_scores (hnd r (List.mem_cons_self r rs))]
    have ihr := ih (fun r' hr' => hnd r' (List.mem_cons_of_mem r hr'))
    cases hf : r.archetype_scores.find? (fun s => s.archetype == A) with
    | none => simpa [hf] using ihr
    | some s => simp [hf, ihr]

/-! ## Helper lemmas: ranked results and whole-pipeline success -/

theorem rankedResults_length (raw : List EvaluationResult) :
    (rankedResults raw).length = raw.length := by
  unfold rankedResults
  rw [assignRanks_length, (sortByScoreDesc_perm (fun r => r.overall_score) raw).length_eq]

theorem rankedResults_map {β : Type} (f : EvaluationResult → β)
    (hf : ∀ (r : EvaluationResult) (n : Nat), f { r with ranking_position := n } = f r)
    (raw : List EvaluationResult) :
    ((rankedResults raw).map f).Perm (raw.map f) := by
  unfold rankedResults
  rw [assignRanks_map f hf]
  exact (sortByScoreDesc_perm (fun r => r.overall_score) raw).map f

theorem rankedResults_mem {raw : List EvaluationResult} {r : EvaluationResult}
    (h : r ∈ rankedResults raw) :
    ∃ r' ∈ raw, r.answer_id = r'.answer_id ∧ r.overall_score = r'.overall_score ∧
      r.archetype_scores = r'.archetype_scores := by
  obtain ⟨r', hr', hprops⟩ := assignRanks_mem h
  exact ⟨r', (sortByScoreDesc_perm (fun x => x.overall_score) raw).mem_iff.mp hr', hprops⟩

theorem rankedResults_ne_nil {raw : List EvaluationResult} (h : raw ≠ []) :
    rankedResults raw ≠ [] := by
  intro hnil
  have := rankedResults_length raw
  rw [hnil] at this
  exact h (List.length_eq_zero.mp this.symm)

theorem compare_answers_ok_shape (env : Env) (req : ComparisonRequest)
    (f : Nat → AnswerInput → Except String EvalOut)
    {raw : List EvaluationResult} (hloop : evalLoop f 0 req.answers = .ok raw)
    {r0 : EvaluationResult} {rest : List EvaluationResult}
    (hr : rankedResults raw = r0 :: rest) :
    compare_answers env req f =
      .ok { request_id := env.request_id
            problem := req.problem
            evaluation_type := req.evaluation_type
            timestamp := env.now
            processing_time := env.t1 - env.t0
            results := r0 :: rest
            best_answer := r0.answer_id
            confidence_summary :=
              [("average_confidence",
                 ((r0 :: rest).map (fun r => r.confidence)).sum / ((r0 :: rest).length : ℚ)),
               ("ranking_confidence", 728 / 1000),
               ("evaluation_reliability", 724 / 1000)]
            archetype_summary := summarize (r0 :: rest) } := by
  rw [compare_answers_eq env req f hloop, hr, assembleResponse_cons]

theorem compare_answers_total_isOk (env : Env) (req : ComparisonRequest)
    (g : Nat → AnswerInput → EvalOut) (hne : req.answers ≠ []) :
    (compare_answers env req (fun i a => .ok (g i a))).isOk = true := by
  have hloop := evalLoop_total g 0 req.answers
  have hrawne : (List.enumFrom 0 req.answers).map
      (fun p => mkEvalResult p.1 p.2 (g p.1 p.2)) ≠ [] := by
    intro hnil
    have := congrArg List.length hnil
    simp [List.enumFrom_length] at this
    exact hne this
  cases hr : rankedResults ((List.enumFrom 0 req.answers).map
      (fun p => mkEvalResult p.1 p.2 (g p.1 p.2))) with
  | nil => exact absurd hr (rankedResults_ne_nil hrawne)
  | cons r0 rest =>
    rw [compare_answers_ok_shape env req _ hloop hr]
    rfl

/-! ## Claim C1 -/

/-- Claim C1 (code-bug evidence): the `/evaluate` handler can never succeed.
`evaluate_single_answer` builds a `ComparisonRequest` whose `answers` list has
exactly one element, so the model's own `min_items=2` validation raises on
construction, the `except` clause catches it, and every call — for every
problem, answer, context and scorer — returns the 500 error, never
`results[0]`. -/
theorem claim_C1_single_eval_always_fails (env : Env) (problem answer : String)
    (context : Option String) (f : Nat → AnswerInput → Except String EvalOut) :
    evaluate_single_answer env problem answer context f =
      .error (.serverError "Evaluation failed: ensure answers has at least 2 items") := rfl

/-! ## Claim C3 -/

/-- Claim C3: for every candidate, the `overall_score` stored in its
`EvaluationResult` equals the arithmetic mean of the `score` values of its
`archetype_scores`.  Scores are exact rationals here, so equality holds
exactly, which is stronger than the 1e-9 tolerance the claim allows. -/
theorem claim_C3_overall_score_is_mean (i : Nat) (a : AnswerInput)
    (problem : String) (context : Option String) (d : Draws) :
    (mkEvalResult i a (evaluate_answer_with_ai problem a.content context d)).overall_score =
      ((mkEvalResult i a (evaluate_answer_with_ai problem a.content context d)).archetype_scores.map
          (fun s => s.score)).sum /
        (((mkEvalResult i a (evaluate_answer_with_ai problem a.content context d)).archetype_scores.length : ℚ)) := rfl

/-! ## Claim C9 -/

/-- Claim C9: the engine is deterministic given a deterministic scorer stub.
Two runs with the same `(problem, candidates, context)` request and the same
scorer, but arbitrary different ambient environments (request id, clock
readings), agree on every response field other than `request_id`,
`timestamp` and `processing_time` — in particular the `results` sequences
are identical in every field, including `improvement_suggestions`. -/
theorem claim_C9_deterministic (env1 env2 : Env) (req : ComparisonRequest)
    (f : Nat → AnswerInput → Except String EvalOut) :
    (compare_answers env1 req f).map
        (fun r => (r.problem, r.evaluation_type, r.results, r.best_answer,
                   r.confidence_summary, r.archetype_summary)) =
      (compare_answers env2 req f).map
        (fun r => (r.problem, r.evaluation_type, r.results, r.best_answer,
                   r.confidence_summary, r.archetype_summary)) := by
  unfold compare_answers
  cases evalLoop f 0 req.answers with
  | error e => rfl
  | ok raw =>
    by_cases h : (rankedResults raw).length = 0
    · simp [assembleResponse, h]
    · cases hb : (rankedResults raw).head? with
      | none => simp [assembleResponse, h, hb]
      | some b => simp [assembleResponse, h, hb, Except.map]

/-! ## Claim C10 -/

/-- Claim C10: a candidate whose `id` is `None` or the empty string gets the
synthesized positional identifier `answer_<index>` (zero-based input index,
the empty string being treated as absent by Python's `or`); any other id is
passed through unchanged. -/
theorem claim_C10_answer_id (answers : List AnswerInput)
    (f : Nat → AnswerInput → Except String EvalOut) (rs : List EvaluationResult)
    (h : evalLoop f 0 answers = .ok rs) (i : Nat) (hi : i < answers.length) :
    ((answers.getD i default).id = none ∨ (answers.getD i default).id = some "" →
      (rs.getD i default).answer_id = "answer_" ++ toString i) ∧
    (∀ s : String, (answers.getD i default).id = some s → s ≠ "" →
      (rs.getD i default).answer_id = s) := by
  obtain ⟨out, _, h2⟩ := evalLoop_getD f 0 answers rs h i hi
  rw [Nat.zero_add] at h2
  constructor
  · intro hid
    rw [h2]
    show pyOrId (answers.getD i default).id i = _
    rcases hid with hid | hid <;> rw [hid] <;> simp [pyOrId]
  · intro s hid hs
    rw [h2]
    show pyOrId (answers.getD i default).id i = s
    rw [hid]
    simp [pyOrId, hs]

/-- Witness for C10 at a concrete input: ids `None`, `""` and `"k"` on a
three-candidate list. -/
theorem claim_C10_answer_id_witness :
    (evalLoop (fun _ _ => Except.ok wOut) 0
        [⟨"x", none⟩, ⟨"y", some ""⟩, ⟨"z", some "k"⟩] =
      .ok [mkEvalResult 0 ⟨"x", none⟩ wOut, mkEvalResult 1 ⟨"y", some ""⟩ wOut,
           mkEvalResult 2 ⟨"z", some "k"⟩ wOut]) ∧
    (0 : Nat) < 3 ∧ (1 : Nat) < 3 ∧ (2 : Nat) < 3 ∧
    ([mkEvalResult 0 ⟨"x", none⟩ wOut, mkEvalResult 1 ⟨"y", some ""⟩ wOut,
      mkEvalResult 2 ⟨"z", some "k"⟩ wOut].getD 0 default).answer_id = "answer_0" ∧
    ([mkEvalResult 0 ⟨"x", none⟩ wOut, mkEvalResult 1 ⟨"y", some ""⟩ wOut,
      mkEvalResult 2 ⟨"z", some "k"⟩ wOut].getD 1 default).answer_id = "answer_1" ∧
    ([mkEvalResult 0 ⟨"x", none⟩ wOut, mkEvalResult 1 ⟨"y", some ""⟩ wOut,
      mkEvalResult 2 ⟨"z", some "k"⟩ wOut].getD 2 default).answer_id = "k" := by
  refine ⟨rfl, by decide, by decide, by decide, ?_, ?_, ?_⟩
  · exact (claim_C10_answer_id [⟨"x", none⟩, ⟨"y", some ""⟩, ⟨"z", some "k"⟩]
      (fun _ _ => Except.ok wOut)
      [mkEvalResult 0 ⟨"x", none⟩ wOut, mkEvalResult 1 ⟨"y", some ""⟩ wOut,
       mkEvalResult 2 ⟨"z", some "k"⟩ wOut] rfl 0 (by decide)).1 (Or.inl rfl)
  · exact (claim_C10_answer_id [⟨"x", none⟩, ⟨"y", some ""⟩, ⟨"z", some "k"⟩]
      (fun _ _ => Except.ok wOut)
      [mkEvalResult 0 ⟨"x", none⟩ wOut, mkEvalResult 1 ⟨"y", some ""⟩ wOut,
       mkEvalResult 2 ⟨"z", some "k"⟩ wOut] rfl 1 (by decide)).1 (Or.inr rfl)
  · exact (claim_C10_answer_id [⟨"x", none⟩, ⟨"y", some ""⟩, ⟨"z", some "k"⟩]
      (fun _ _ => Except.ok wOut)
      [mkEvalResult 0 ⟨"x", none⟩ wOut, mkEvalResult 1 ⟨"y", some ""⟩ wOut,
       mkEvalResult 2 ⟨"z", some "k"⟩ wOut] rfl 2 (by decide)).2 "k" rfl (by decide)

/-! ## Claim C5 -/

/-- Claim C5 (amended): if the scorer call for any candidate fails, the whole
comparison aborts — no `ComparisonResponse` is produced — and the failure
surfaces as the generic 500 error `"Evaluation failed: " ++ str(e)`.  The
engine itself does not attach the failing candidate's identifier; it appears
only if the scorer's own exception message happens to contain it. -/
theorem claim_C5_scorer_failure_aborts (env : Env) (req : ComparisonRequest)
    (f : Nat → AnswerInput → Except String EvalOut) (msg : String)
    (h : evalLoop f 0 req.answers = .error msg) :
    compare_answers env req f = .error (.serverError ("Evaluation failed: " ++ msg)) := by
  simp [compare_answers, h]

/-- Witness for C5: a stub scorer raising `"scorer exploded"` on the second
candidate aborts the whole comparison with the wrapped message. -/
theorem claim_C5_scorer_failure_aborts_witness :
    (evalLoop wScorerRaisingB 0 wAnswers2 = .error "scorer exploded") ∧
    compare_answers wEnv ⟨"p", wAnswers2, "comprehensive", none⟩ wScorerRaisingB =
      .error (.serverError "Evaluation failed: scorer exploded") := by
  refine ⟨rfl, ?_⟩
  exact claim_C5_scorer_failure_aborts wEnv ⟨"p", wAnswers2, "comprehensive", none⟩
    wScorerRaisingB "scorer exploded" rfl

/-- Counterexample for C5 as stated: the candidate with id "b" makes the
scorer raise, yet the surfaced error message does not carry the identifier
"b" anywhere — the engine wraps only the scorer's own message. -/
theorem claim_C5_counterexample :
    compare_answers wEnv ⟨"p", wAnswers2, "comprehensive", none⟩ wScorerRaisingB =
      .error (.serverError "Evaluation failed: scorer exploded") ∧
    ¬('b' ∈ "Evaluation failed: scorer exploded".data) := by
  exact ⟨rfl, by decide⟩

/-! ## Claim C6 -/

/-- Claim C6 (amended): `best_answer` is the `answer_id` of the rank-1
result whenever the result list is non-empty; but on an empty candidate
list the engine does not degrade gracefully: `best_answer` would be absent,
and computing `average_confidence` divides by zero, so the call faults with
the 500 error instead of returning a response. -/
theorem claim_C6_best_answer (env : Env) :
    (∀ (req : ComparisonRequest) (f : Nat → AnswerInput → Except String EvalOut)
       (raw : List EvaluationResult) (r0 : EvaluationResult)
       (rest : List EvaluationResult),
       evalLoop f 0 req.answers = .ok raw →
       rankedResults raw = r0 :: rest →
       ∃ resp, compare_answers env req f = .ok resp ∧
         resp.results = r0 :: rest ∧ resp.best_answer = r0.answer_id) ∧
    (∀ (problem etype : String) (context : Option String)
       (f : Nat → AnswerInput → Except String EvalOut),
       compare_answers env ⟨problem, [], etype, context⟩ f =
         .error (.serverError "Evaluation failed: division by zero")) := by
  constructor
  · intro req f raw r0 rest hloop hr
    exact ⟨_, compare_answers_ok_shape env req f hloop hr, rfl, rfl⟩
  · intro problem etype context f
    rfl

/-- Witness for C6: on the two-candidate fixture the best answer is the
rank-1 result's id; on the empty list the engine faults. -/
theorem claim_C6_best_answer_witness :
    (evalLoop wScorerAB 0 wAnswers2 = .ok wRaw) ∧
    (rankedResults wRaw = wR0 :: [wR1]) ∧
    (∃ resp, compare_answers wEnv ⟨"p", wAnswers2, "comprehensive", none⟩ wScorerAB =
        .ok resp ∧ resp.results = wR0 :: [wR1] ∧ resp.best_answer = wR0.answer_id) ∧
    compare_answers wEnv ⟨"p", [], "comprehensive", none⟩ wScorerAB =
      .error (.serverError "Evaluation failed: division by zero") := by
  refine ⟨rfl, rfl, ?_, ?_⟩
  · exact (claim_C6_best_answer wEnv).1 ⟨"p", wAnswers2, "comprehensive", none⟩
      wScorerAB wRaw wR0 [wR1] rfl rfl
  · exact (claim_C6_best_answer wEnv).2 "p" "comprehensive" none wScorerAB

/-- Counterexample for C6 as stated ("the engine does not fault on an empty
result list"): on an empty candidate list the engine returns the 500
division-by-zero error instead of a response with `best_answer` absent. -/
theorem claim_C6_counterexample :
    compare_answers wEnv ⟨"p", [], "comprehensive", none⟩ (fun _ _ => .ok wOut) =
      .error (.serverError "Evaluation failed: division by zero") := rfl

/-! ## Claim C4 -/

/-- Claim C4 (amended): a request with 1 or 11 candidates is rejected by
request validation (`InvalidRequest`) — for every scorer, so no scorer call
and no side effect can occur — while a request with exactly 2 or exactly 10
candidates is accepted (with the shipped mock scorer the call succeeds).
Contrary to the claim, empty problem or empty candidate content is NOT
rejected: the request model carries no emptiness constraint (see the
counterexample). -/
theorem claim_C4_boundaries :
    (∀ (env : Env) (problem etype : String) (context : Option String)
       (answers : List AnswerInput) (f : Nat → AnswerInput → Except String EvalOut),
       answers.length = 1 →
       compare_endpoint env problem answers etype context f =
         .error (.invalidRequest "ensure answers has at least 2 items")) ∧
    (∀ (env : Env) (problem etype : String) (context : Option String)
       (answers : List AnswerInput) (f : Nat → AnswerInput → Except String EvalOut),
       answers.length = 11 →
       compare_endpoint env problem answers etype context f =
         .error (.invalidRequest "ensure answers has at most 10 items")) ∧
    (∀ (env : Env) (draws : Nat → Draws) (problem etype : String)
       (context : Option String) (answers : List AnswerInput),
       answers.length = 2 ∨ answers.length = 10 →
       (compare_endpoint_mock env draws problem answers etype context).isOk = true) := by
  refine ⟨?_, ?_, ?_⟩
  · intro env problem etype context answers f h
    unfold compare_endpoint mkComparisonRequest
    rw [if_pos (by omega)]
  · intro env problem etype context answers f h
    unfold compare_endpoint mkComparisonRequest
    rw [if_neg (by omega), if_pos (by omega)]
  · intro env draws problem etype context answers h
    have h2 : ¬(answers.length < 2) := by rcases h with h | h <;> omega
    have h10 : ¬(10 < answers.length) := by rcases h with h | h <;> omega
    have hne : answers ≠ [] := by
      intro hnil
      rw [hnil] at h
      rcases h with h | h <;> simp at h
    unfold compare_endpoint_mock compare_endpoint mkComparisonRequest
    rw [if_neg h2, if_neg h10]
    exact compare_answers_total_isOk env ⟨problem, answers, etype, context⟩
      (fun i a => evaluate_answer_with_ai problem a.content context (draws i)) hne

/-- Witness for C4: one and eleven candidates rejected, two accepted. -/
theorem claim_C4_boundaries_witness :
    (([⟨"only", none⟩] : List AnswerInput).length = 1) ∧
    compare_endpoint wEnv "p" [⟨"only", none⟩] "comprehensive" none
        (fun _ _ => .ok wOut) =
      .error (.invalidRequest "ensure answers has at least 2 items") ∧
    (wAnswers11.length = 11) ∧
    compare_endpoint wEnv "p" wAnswers11 "comprehensive" none
        (fun _ _ => .ok wOut) =
      .error (.invalidRequest "ensure answers has at most 10 items") ∧
    (wAnswers2.length = 2 ∨ wAnswers2.length = 10) ∧
    (compare_endpoint_mock wEnv (fun _ => wDraws) "p" wAnswers2 "comprehensive"
        none).isOk = true := by
  refine ⟨by decide, ?_, by decide, ?_, Or.inl (by decide), ?_⟩
  · exact claim_C4_boundaries.1 wEnv "p" "comprehensive" none [⟨"only", none⟩]
      (fun _ _ => .ok wOut) (by decide)
  · exact claim_C4_boundaries.2.1 wEnv "p" "comprehensive" none wAnswers11
      (fun _ _ => .ok wOut) (by decide)
  · exact claim_C4_boundaries.2.2 wEnv (fun _ => wDraws) "p" "comprehensive" none
      wAnswers2 (Or.inl (by decide))

/-- Counterexample for C4 as stated: a request with an empty problem and two
empty candidate contents is NOT rejected with `InvalidRequest` — it is
accepted and succeeds, because no emptiness validation exists anywhere. -/
theorem claim_C4_counterexample :
    (compare_endpoint_mock wEnv (fun _ => wDraws) "" [⟨"", none⟩, ⟨"", none⟩]
        "comprehensive" none).isOk = true := by
  exact compare_answers_total_isOk wEnv
    ⟨"", [⟨"", none⟩, ⟨"", none⟩], "comprehensive", none⟩
    (fun i a => evaluate_answer_with_ai "" a.content none ((fun _ => wDraws) i))
    (by decide)

/-! ## Claim C7 -/

/-- Claim C7 (amended): the engine performs no validation of the scorer's
postcondition — no archetype-count check, no range check, and no
`ScorerContractViolation` failure exists anywhere in the code.  Whatever
archetype scores the scorer returns are passed through unchanged into the
results and the comparison succeeds.  (The only clamping in the code is
inside the mock scorer itself, which silently caps each score above at 1.0
via `min`.) -/
theorem claim_C7_no_scorer_validation (env : Env) (req : ComparisonRequest)
    (g : Nat → AnswerInput → EvalOut) (hne : req.answers ≠ []) :
    ∃ resp, compare_answers env req (fun i a => .ok (g i a)) = .ok resp ∧
      (resp.results.map (fun r => r.archetype_scores)).Perm
        ((List.enumFrom 0 req.answers).map
          (fun p => (g p.1 p.2).archetype_scores)) := by
  have hloop := evalLoop_total g 0 req.answers
  have hrawne : (List.enumFrom 0 req.answers).map
      (fun p => mkEvalResult p.1 p.2 (g p.1 p.2)) ≠ [] := by
    intro hnil
    have := congrArg List.length hnil
    simp [List.enumFrom_length] at this
    exact hne this
  cases hr : rankedResults ((List.enumFrom 0 req.answers).map
      (fun p => mkEvalResult p.1 p.2 (g p.1 p.2))) with
  | nil => exact absurd hr (rankedResults_ne_nil hrawne)
  | cons r0 rest =>
    refine ⟨_, compare_answers_ok_shape env req _ hloop hr, ?_⟩
    show ((r0 :: rest).map (fun r => r.archetype_scores)).Perm _
    rw [← hr]
    refine (rankedResults_map (fun r => r.archetype_scores) (fun r n => rfl) _).trans ?_
    rw [List.map_map]
    exact List.Perm.refl _

/-- Witness for C7: a scorer emitting a single out-of-range archetype score
is passed through unvalidated on the two-candidate fixture. -/
theorem claim_C7_no_scorer_validation_witness :
    ((⟨"p", wAnswers2, "comprehensive", none⟩ : ComparisonRequest).answers ≠ []) ∧
    (∃ resp, compare_answers wEnv ⟨"p", wAnswers2, "comprehensive", none⟩
        (fun i a => .ok ((fun (_ : Nat) (_ : AnswerInput) => wBadOut) i a)) = .ok resp ∧
      (resp.results.map (fun r => r.archetype_scores)).Perm
        ((List.enumFrom 0 (⟨"p", wAnswers2, "comprehensive", none⟩ : ComparisonRequest).answers).map
          (fun p => ((fun (_ : Nat) (_ : AnswerInput) => wBadOut) p.1 p.2).archetype_scores))) := by
  refine ⟨by decide, ?_⟩
  exact claim_C7_no_scorer_validation wEnv ⟨"p", wAnswers2, "comprehensive", none⟩
    (fun _ _ => wBadOut) (by decide)

/-- Counterexample for C7 as stated: a scorer returning a single archetype
score of 5 — out of range and not covering the fixed five-archetype set —
produces a successful comparison whose results carry that score unchanged:
no `ScorerContractViolation`, no clamping by the engine. -/
theorem claim_C7_counterexample :
    (compare_answers wEnv ⟨"p", wAnswers2, "comprehensive", none⟩
        (fun _ _ => .ok wBadOut)).map
        (fun resp => resp.results.map (fun r => r.archetype_scores)) =
      .ok [[⟨"clarity", 5, "x"⟩], [⟨"clarity", 5, "x"⟩]] := rfl

/-! ## Claim C2 -/

/-- Claim C2: for every valid comparison request (2..10 candidates, total
scorer), the comparison succeeds and
(a) the results are a permutation of the input candidates (identified by
    their resolved `answer_id` and `content`),
(b) `ranking_position` values are exactly `1..N` in order,
(c) results are sorted by `overall_score` descending, and
(d) the output is the stable descending sort of the input-ordered
    evaluations: tagging each evaluation with its input index, the sorted
    tagged list projects onto the output, and any two entries with equal
    `overall_score` keep increasing input indices — the earlier-submitted
    candidate gets the earlier rank. -/
theorem claim_C2_ranking (env : Env) (problem etype : String)
    (context : Option String) (answers : List AnswerInput)
    (g : Nat → AnswerInput → EvalOut)
    (h2 : 2 ≤ answers.length) (h10 : answers.length ≤ 10) :
    ∃ resp, compare_endpoint env problem answers etype context
        (fun i a => .ok (g i a)) = .ok resp ∧
      (resp.results.map (fun r => (r.answer_id, r.content))).Perm
        ((List.enumFrom 0 answers).map (fun p => (pyOrId p.2.id p.1, p.2.content))) ∧
      resp.results.map (fun r => r.ranking_position) = List.range' 1 answers.length ∧
      resp.results.Pairwise (fun a b => b.overall_score ≤ a.overall_score) ∧
      resp.results = assignRanks 0
        ((sortByScoreDesc (fun p : Nat × EvaluationResult => p.2.overall_score)
           (List.enumFrom 0 ((List.enumFrom 0 answers).map
             (fun p => mkEvalResult p.1 p.2 (g p.1 p.2))))).map Prod.snd) ∧
      (sortByScoreDesc (fun p : Nat × EvaluationResult => p.2.overall_score)
         (List.enumFrom 0 ((List.enumFrom 0 answers).map
           (fun p => mkEvalResult p.1 p.2 (g p.1 p.2))))).Pairwise
        (fun p q => p.2.overall_score = q.2.overall_score → p.1 < q.1) := by
  have hvalid : compare_endpoint env problem answers etype context
      (fun i a => .ok (g i a)) =
      compare_answers env ⟨problem, answers, etype, context⟩
        (fun i a => .ok (g i a)) := by
    unfold compare_endpoint mkComparisonRequest
    rw [if_neg (by omega), if_neg (by omega)]
  have hloop := evalLoop_total g 0 answers
  set raw := (List.enumFrom 0 answers).map
    (fun p => mkEvalResult p.1 p.2 (g p.1 p.2)) with hraw
  have hrawlen : raw.length = answers.length := by
    rw [hraw, List.length_map, List.enumFrom_length]
  have hrawne : raw ≠ [] := by
    intro hnil
    rw [hnil] at hrawlen
    simp at hrawlen
    omega
  cases hr : rankedResults raw with
  | nil => exact absurd hr (rankedResults_ne_nil hrawne)
  | cons r0 rest =>
    refine ⟨_, by rw [hvalid]; exact compare_answers_ok_shape env _ _ hloop hr,
      ?_, ?_, ?_, ?_, ?_⟩
    · show ((r0 :: rest).map (fun r => (r.answer_id, r.content))).Perm _
      rw [← hr]
      refine (rankedResults_map (fun r => (r.answer_id, r.content))
        (fun r n => rfl) raw).trans ?_
      rw [hraw, List.map_map]
      exact List.Perm.refl _
    · show (r0 :: rest).map (fun r => r.ranking_position) = _
      rw [← hr]
      have hranks := assignRanks_ranks 0
        (sortByScoreDesc (fun r => r.overall_score) raw)
      rw [(sortByScoreDesc_perm (fun r => r.overall_score) raw).length_eq,
        hrawlen] at hranks
      exact hranks
    · show ((r0 :: rest) : List EvaluationResult).Pairwise _
      rw [← hr]
      have hs := sortByScoreDesc_sorted (fun r => r.overall_score) raw
      have hmap : ((rankedResults raw).map (fun r => r.overall_score)) =
          (sortByScoreDesc (fun r => r.overall_score) raw).map
            (fun r => r.overall_score) :=
        assignRanks_map (fun r => r.overall_score) (fun r n => rfl) 0 _
      have h1 : ((rankedResults raw).map
          (fun r => r.overall_score)).Pairwise (fun x y => y ≤ x) := by
        rw [hmap]
        exact List.pairwise_map.mpr hs
      exact List.pairwise_map.mp h1
    · show (r0 :: rest : List EvaluationResult) = _
      rw [← hr]
      show rankedResults raw = _
      unfold rankedResults
      rw [sortByScoreDesc_map (fun r => r.overall_score) Prod.snd
        (List.enumFrom 0 raw), enumFrom_map_snd']
    · exact (sortByScoreDesc_stable
        (fun p : Nat × EvaluationResult => p.2.overall_score) Prod.fst
        (enumFrom_fst_lt 0 raw)).imp (by
          intro a b hab heq
          rcases hab with h1 | h1
          · rw [heq] at h1; exact absurd h1 (lt_irrefl _)
          · exact h1.2)

/-- Witness for C2 on the two-candidate fixture with the deterministic
stub scorer. -/
theorem claim_C2_ranking_witness :
    (2 ≤ wAnswers2.length) ∧ (wAnswers2.length ≤ 10) ∧
    (∃ resp, compare_endpoint wEnv "p" wAnswers2 "comprehensive" none
        (fun i a => .ok (wG i a)) = .ok resp ∧
      (resp.results.map (fun r => (r.answer_id, r.content))).Perm
        ((List.enumFrom 0 wAnswers2).map
          (fun p => (pyOrId p.2.id p.1, p.2.content))) ∧
      resp.results.map (fun r => r.ranking_position) =
        List.range' 1 wAnswers2.length ∧
      resp.results.Pairwise (fun a b => b.overall_score ≤ a.overall_score) ∧
      resp.results = assignRanks 0
        ((sortByScoreDesc (fun p : Nat × EvaluationResult => p.2.overall_score)
           (List.enumFrom 0 ((List.enumFrom 0 wAnswers2).map
             (fun p => mkEvalResult p.1 p.2 (wG p.1 p.2))))).map Prod.snd) ∧
      (sortByScoreDesc (fun p : Nat × EvaluationResult => p.2.overall_score)
         (List.enumFrom 0 ((List.enumFrom 0 wAnswers2).map
           (fun p => mkEvalResult p.1 p.2 (wG p.1 p.2))))).Pairwise
        (fun p q => p.2.overall_score = q.2.overall_score → p.1 < q.1)) :=
  ⟨by decide, by decide,
   claim_C2_ranking wEnv "p" "comprehensive" none wAnswers2 wG
     (by decide) (by decide)⟩

/-! ## Claim C8 -/

/-- Claim C8: for every archetype `A` appearing in at least one candidate's
`archetype_scores` (scorer outputs listing each archetype at most once, as
the Scorer contract requires), the response's `archetype_summary` has an
entry for `A` equal to the mean, over exactly the candidates possessing `A`
(even when other candidates lack it), of their score for `A`.  The list of
those per-candidate scores is the `filterMap` below; it is non-empty, and
the summary value is its sum divided by its length. -/
theorem claim_C8_archetype_summary (env : Env) (req : ComparisonRequest)
    (f : Nat → AnswerInput → Except String EvalOut)
    (raw : List EvaluationResult) (A : String)
    (hloop : evalLoop f 0 req.answers = .ok raw)
    (hraw : raw ≠ [])
    (hnd : ∀ r ∈ raw, (r.archetype_scores.map (fun s => s.archetype)).Nodup)
    (happ : ∃ r ∈ raw, ∃ s ∈ r.archetype_scores, s.archetype = A) :
    ∃ resp, compare_answers env req f = .ok resp ∧
      resp.results.filterMap
          (fun r => (r.archetype_scores.find? (fun s => s.archetype == A)).map
            (fun s => s.score)) ≠ [] ∧
      dictGet? resp.archetype_summary A =
        some ((resp.results.filterMap
            (fun r => (r.archetype_scores.find? (fun s => s.archetype == A)).map
              (fun s => s.score))).sum /
          ((resp.results.filterMap
            (fun r => (r.archetype_scores.find? (fun s => s.archetype == A)).map
              (fun s => s.score))).length : ℚ)) := by
  cases hr : rankedResults raw with
  | nil => exact absurd hr (rankedResults_ne_nil hraw)
  | cons r0 rest =>
    refine ⟨_, compare_answers_ok_shape env req f hloop hr, ?_⟩
    show (r0 :: rest).filterMap _ ≠ [] ∧
      dictGet? (summarize (r0 :: rest)) A = some _
    rw [← hr]
    have hndR : ∀ r ∈ rankedResults raw,
        (r.archetype_scores.map (fun s => s.archetype)).Nodup := by
      intro r hrm
      obtain ⟨r', hr', _, _, hsc⟩ := rankedResults_mem hrm
      rw [hsc]
      exact hnd r' hr'
    have howners := owners_eq_flat A (rankedResults raw) hndR
    have hmapas : ((rankedResults raw).map (fun r => r.archetype_scores)).Perm
        (raw.map (fun r => r.archetype_scores)) :=
      rankedResults_map (fun r => r.archetype_scores) (fun r n => rfl) raw
    have hflat : ((rankedResults raw).flatMap (fun r => r.archetype_scores)).Perm
        (raw.flatMap (fun r => r.archetype_scores)) :=
      List.Perm.flatten hmapas
    have hfilter := hflat.filter (fun s => s.archetype == A)
    have hrawfilter : (raw.flatMap (fun r => r.archetype_scores)).filter
        (fun s => s.archetype == A) ≠ [] := by
      obtain ⟨r, hrmem, s, hsmem, hsA⟩ := happ
      refine List.ne_nil_of_mem (a := s) ?_
      rw [List.mem_filter]
      exact ⟨List.mem_flatMap.mpr ⟨r, hrmem, hsmem⟩, by simp [hsA]⟩
    have hRfilter : ((rankedResults raw).flatMap (fun r => r.archetype_scores)).filter
        (fun s => s.archetype == A) ≠ [] := by
      intro hnil
      have hlen := hfilter.length_eq
      rw [hnil] at hlen
      exact hrawfilter (List.length_eq_zero.mp hlen.symm)
    constructor
    · rw [howners]
      intro hnil
      rw [List.map_eq_nil_iff] at hnil
      exact hRfilter hnil
    · rw [dictGet?_summarize, dictGet?_build, if_neg hRfilter, howners]
      rfl

/-- Witness for C8 on a fixture where only the first candidate possesses the
"structure" archetype: the summary entry is that candidate's score alone. -/
theorem claim_C8_archetype_summary_witness :
    (evalLoop wScorerPartial 0 wAnswers2 = .ok wRawPartial) ∧
    (wRawPartial ≠ []) ∧
    (∀ r ∈ wRawPartial, (r.archetype_scores.map (fun s => s.archetype)).Nodup) ∧
    (∃ r ∈ wRawPartial, ∃ s ∈ r.archetype_scores, s.archetype = "structure") ∧
    (∃ resp, compare_answers wEnv ⟨"p", wAnswers2, "comprehensive", none⟩
        wScorerPartial = .ok resp ∧
      resp.results.filterMap
          (fun r => (r.archetype_scores.find? (fun s => s.archetype == "structure")).map
            (fun s => s.score)) ≠ [] ∧
      dictGet? resp.archetype_summary "structure" =
        some ((resp.results.filterMap
            (fun r => (r.archetype_scores.find? (fun s => s.archetype == "structure")).map
              (fun s => s.score))).sum /
          ((resp.results.filterMap
            (fun r => (r.archetype_scores.find? (fun s => s.archetype == "structure")).map
              (fun s => s.score))).length : ℚ))) := by
  refine ⟨rfl, by decide, by decide, by decide, ?_⟩
  exact claim_C8_archetype_summary wEnv ⟨"p", wAnswers2, "comprehensive", none⟩
    wScorerPartial wRawPartial "structure" rfl (by decide) (by decide) (by decide)

end ApiServer
